import Mathlib

/-!
Verification of the ipoipo report-downloader against its design notes.

The Python sources are embedded shallowly: pure helpers become Lean
functions over `List Char` / `Nat`, the networked orchestration loops
become functions over an explicit environment describing the outcome of
each network interaction, and the SQLite tables become in-memory lists.
All definitions are straight translations of the corresponding Python
functions, noted file by file below.
-/

namespace IpoIpo

/- ===================== Python string primitives ===================== -/

/-- Membership of a needle list inside a haystack list, as Python's
`needle in haystack` on strings. -/
def containsSub (needle : List Char) : List Char → Bool
  | [] => needle.isEmpty
  | h :: t => needle.isPrefixOf (h :: t) || containsSub needle t

/-- Worker for `collapseRuns`: `prevIn` records whether the previous
character belonged to the class, so that a whole run produces a single
underscore. -/
def collapseRunsAux (p : Char → Bool) : Bool → List Char → List Char
  | _, [] => []
  | prevIn, c :: rest =>
    if p c then
      if prevIn then collapseRunsAux p true rest
      else '_' :: collapseRunsAux p true rest
    else c :: collapseRunsAux p false rest

/-- Python `re.sub(r'[class]+', '_', s)`: every maximal run of characters
of the class becomes one underscore. -/
def collapseRuns (p : Char → Bool) (l : List Char) : List Char :=
  collapseRunsAux p false l

/-- Python `str.strip(chars)`: drop characters of the set from both ends. -/
def stripChars (chars : List Char) (l : List Char) : List Char :=
  ((l.dropWhile chars.contains).reverse.dropWhile chars.contains).reverse

/-- Python `s[:n]` where `n` may be negative: a negative bound counts from
the end, clamped at zero. -/
def pySliceTo (l : List Char) (n : Int) : List Char :=
  if 0 ≤ n then l.take n.toNat else l.take (l.length - n.natAbs)

/-- Python `str.rfind(c)`: index of the last occurrence, `-1` when absent. -/
def pyRfind (c : Char) (l : List Char) : Int :=
  match (l.reverse.findIdx? fun x => x = c) with
  | none => -1
  | some k => (l.length : Int) - 1 - (k : Int)

/-- Python `os.path.splitext` (posix): split off the extension at the last
dot, provided some non-dot character of the basename precedes it. -/
def splitext (p : List Char) : List Char × List Char :=
  let sepIdx := pyRfind '/' p
  let dotIdx := pyRfind '.' p
  if sepIdx < dotIdx then
    let between := ((p.drop (sepIdx + 1).toNat).take (dotIdx - sepIdx - 1).toNat)
    if between.any fun c => c ≠ '.' then
      (p.take dotIdx.toNat, p.drop dotIdx.toNat)
    else (p, [])
  else (p, [])

/-- Python's `\s` (Unicode whitespace) on the code points this project can
meet. -/
def isPythonSpace (c : Char) : Bool :=
  let v := c.toNat
  (9 ≤ v && v ≤ 13) || v = 32 || (28 ≤ v && v ≤ 31) || v = 133 || v = 160 ||
  v = 0x1680 || (0x2000 ≤ v && v ≤ 0x200a) || v = 0x2028 || v = 0x2029 ||
  v = 0x202f || v = 0x205f || v = 0x3000

/- ===================== src/downloader/file_manager.py ===================== -/

namespace FileManager

/-- Maximum file-name length, `config/settings.py` (`MAX_FILENAME_LENGTH`). -/
def MAX_FILENAME_LENGTH : Nat := 200

/-- Characters of the `ILLEGAL_CHARS` regex class, `file_manager.py` line 26.
The Python source is two adjacent string literals (the pair of ASCII
single quotes in the middle closes and reopens the literal), so the class
holds exactly these code points; the ASCII double quote appears twice in
the source and once here. -/
def illegalChars : List Char :=
  ['<', '>', ':', '"', '/', '\\', '|', '?', '*', '【', '】', '（', '）',
   '《', '》', '：', '；', '，', '。', '！', '？', '[', ']']

def isIllegalChar (c : Char) : Bool := illegalChars.contains c

/-- Python `\w` restricted to the inputs exercised here: ASCII
alphanumerics, the underscore, and the CJK ideographs that the original
pattern `[^\w一-鿿]` keeps through its explicit range anyway. -/
def isWordLike (c : Char) : Bool :=
  c.isAlphanum || c = '_' || (0x4e00 ≤ c.toNat && c.toNat ≤ 0x9fff)

/-- The name-processing pipeline of `FileManager.sanitize_filename` up to,
but not including, the empty-name fallback: returns the processed name
part and the untouched extension. -/
def sanitizePieces (filename : List Char) (is_folder : Bool) : List Char × List Char :=
  let (name, ext) :=
    if !is_folder && filename.contains '.' then splitext filename
    else (filename, [])
  let name := name.map fun c => if isIllegalChar c then '_' else c
  let name := name.map fun c =>
    if c = '（' || c = '）' || c = '【' || c = '】' then '_' else c
  let name := collapseRuns (fun c => c = '_' || isPythonSpace c || c = '.') name
  let name := stripChars ['_', '.', ' '] name
  let name :=
    if is_folder then
      collapseRuns (fun c => c = '_') (collapseRuns (fun c => !isWordLike c) name)
    else name
  let maxLen : Int :=
    if !ext.isEmpty then (MAX_FILENAME_LENGTH : Int) - (ext.length : Int)
    else (MAX_FILENAME_LENGTH : Int)
  let name := if maxLen < (name.length : Int) then pySliceTo name maxLen else name
  (name, ext)

/-- `FileManager.sanitize_filename` (file_manager.py lines 35-75). -/
def sanitize_filename (filename : String) (is_folder : Bool) : String :=
  let (name, ext) := sanitizePieces filename.toList is_folder
  let name := if name.isEmpty then "unnamed".toList else name
  if !ext.isEmpty then ⟨name ++ ext⟩ else ⟨name⟩

/-- Value of an all-digit run. -/
def digitsToNat (l : List Char) : Nat :=
  l.foldl (fun a c => a * 10 + (c.toNat - 48)) 0

def isLeapYear (y : Nat) : Bool := (y % 4 = 0 && y % 100 ≠ 0) || y % 400 = 0

def daysInMonth (y m : Nat) : Nat :=
  if m = 2 then (if isLeapYear y then 29 else 28)
  else if m = 4 || m = 6 || m = 9 || m = 11 then 30
  else 31

/-- `datetime.strptime(ts, '%Y%m%d')` succeeds: eight digits forming a
proleptic-Gregorian calendar date with year 1..9999. -/
def validYmd8 (l : List Char) : Bool :=
  l.length = 8 && l.all Char.isDigit &&
  (let y := digitsToNat (l.take 4)
   let m := digitsToNat ((l.drop 4).take 2)
   let d := digitsToNat (l.drop 6)
   1 ≤ y && y ≤ 9999 && 1 ≤ m && m ≤ 12 && 1 ≤ d && d ≤ daysInMonth y m)

/-- `re.search(r'^(\d{8})', s)`: the group, when the string starts with
eight digits. -/
def searchLeading8 (l : List Char) : Option (List Char) :=
  if 8 ≤ l.length && (l.take 8).all Char.isDigit then some (l.take 8) else none

/-- `re.search(r'(\d{8})_', s)`: leftmost eight digits directly followed by
an underscore. -/
def searchD8Underscore : List Char → Option (List Char)
  | [] => none
  | c :: rest =>
    if 9 ≤ (c :: rest).length && ((c :: rest).take 8).all Char.isDigit &&
       ((c :: rest).drop 8).headI = '_' then
      some ((c :: rest).take 8)
    else searchD8Underscore rest

/-- `re.search(r'_(\d{8})', s)`: the eight digits directly after the
leftmost underscore that has eight digits behind it. -/
def searchUnderscoreD8 : List Char → Option (List Char)
  | [] => none
  | c :: rest =>
    if c = '_' && 8 ≤ rest.length && (rest.take 8).all Char.isDigit then
      some (rest.take 8)
    else searchUnderscoreD8 rest

/-- `re.search(r'(\d{14})', s)`: leftmost run of fourteen digits. -/
def searchD14 : List Char → Option (List Char)
  | [] => none
  | c :: rest =>
    if 14 ≤ (c :: rest).length && ((c :: rest).take 14).all Char.isDigit then
      some ((c :: rest).take 14)
    else searchD14 rest

/-- One iteration of the pattern loop: take the first match of the
pattern, keep its first eight characters when they form a valid date;
an invalid date abandons the pattern (Python's `continue` moves to the
next pattern, not to the next match). -/
def tryPattern (g : Option (List Char)) : Option (List Char) :=
  match g with
  | some m => (if validYmd8 (m.take 8) then some (m.take 8) else none)
  | none => none

/-- `FileManager.extract_timestamp_from_filename` (file_manager.py lines
153-182); `today` stands for `datetime.now().strftime('%Y%m%d')`. -/
def extract_timestamp_from_filename (filename : String) (today : String) : String :=
  let l := filename.toList
  match tryPattern (searchLeading8 l) with
  | some ts => ⟨ts⟩
  | none =>
  match tryPattern (searchD8Underscore l) with
  | some ts => ⟨ts⟩
  | none =>
  match tryPattern (searchUnderscoreD8 l) with
  | some ts => ⟨ts⟩
  | none =>
  match tryPattern (searchD14 l) with
  | some ts => ⟨ts⟩
  | none => today

end FileManager

/- ===================== src/model/http_client.py ===================== -/

namespace HTTPClient

/-- What one `session.request` call comes back with, seen from
`_request`'s exception handlers: a response below 400, an
`HTTPError` carrying the response's status code, or some other
`RequestException` (timeout, connection error, ...). -/
inductive ReqOutcome where
  | ok
  | httpErr (status : Nat)
  | reqErr
  deriving DecidableEq, Repr

/-- The exception `_request` lets escape. -/
inductive ReqError where
  | http (status : Nat)
  | conn
  deriving DecidableEq, Repr

/-- The error object corresponding to a failed attempt. -/
def errOf : ReqOutcome → ReqError
  | .httpErr s => .http s
  | _ => .conn

/-- Network behaviour per attempt number (1-based). -/
structure ReqEnv where
  resp : Nat → ReqOutcome

/-- Observable behaviour of one `_request` call: the returned value or
raised error, the number of attempts actually executed, and the waits
slept between attempts, in seconds and in order. -/
structure ReqTrace where
  result : Except ReqError Unit
  attemptsMade : Nat
  sleeps : List Nat
  deriving Repr

/-- The `for attempt in range(1, self.max_retries + 1)` loop of
`HTTPClient._request` (http_client.py lines 133-164); `fuel` counts the
iterations the loop may still perform. -/
def requestGo (env : ReqEnv) (maxRetries : Nat) :
    Nat → Nat → Nat → List Nat → Option ReqError → ReqTrace
  | 0, _, done, sleeps, lastErr =>
    { result := Except.error (lastErr.getD .conn), attemptsMade := done, sleeps := sleeps }
  | fuel + 1, attempt, done, sleeps, _lastErr =>
    match env.resp attempt with
    | .ok => { result := Except.ok (), attemptsMade := done + 1, sleeps := sleeps }
    | .httpErr s =>
      if s = 403 then
        { result := Except.error (.http 403), attemptsMade := done + 1, sleeps := sleeps }
      else
        requestGo env maxRetries fuel (attempt + 1) (done + 1)
          (if attempt < maxRetries then sleeps ++ [2 ^ attempt] else sleeps)
          (some (.http s))
    | .reqErr =>
      requestGo env maxRetries fuel (attempt + 1) (done + 1)
        (if attempt < maxRetries then sleeps ++ [2 ^ attempt] else sleeps)
        (some .conn)

/-- `HTTPClient._request` (http_client.py lines 114-164). -/
def request (env : ReqEnv) (maxRetries : Nat) : ReqTrace :=
  requestGo env maxRetries maxRetries 1 0 [] none

/-- A failing attempt whose status is not 403 (the only attempts
`_request` continues past). -/
def isFailureNon403 : ReqOutcome → Bool
  | .ok => false
  | .httpErr s => s ≠ 403
  | .reqErr => true

/-- A transient failure in the sense of the design notes: a 5xx status,
a timeout, or a connection error. -/
def isTransient : ReqOutcome → Bool
  | .ok => false
  | .httpErr s => 500 ≤ s && s ≤ 599
  | .reqErr => true

/-- What the single GET issued by `download_file` comes back with. -/
structure DLResponse where
  raisesOnRequest : Bool
  status : Nat
  contentType : String
  bodyReadFails : Bool
  deriving DecidableEq, Repr

/-- Observable outcome of `download_file`: the returned boolean and the
`_last_status_code` field afterwards. -/
structure DLOutcome where
  ok : Bool
  lastStatusCode : Option Nat
  deriving DecidableEq, Repr

/-- `HTTPClient.download_file` (http_client.py lines 166-248). The body
is streamed only when every earlier check passed; a `RequestException`
at any point is caught and turned into `False`. -/
def download_file (url : String) (resp : DLResponse) : DLOutcome :=
  if resp.raisesOnRequest then { ok := false, lastStatusCode := none }
  else
    let last := some resp.status
    if resp.status = 403 then { ok := false, lastStatusCode := last }
    else if 400 ≤ resp.status && resp.status ≤ 599 then
      { ok := false, lastStatusCode := last }
    else if containsSub "text/html".toList (resp.contentType.toList.map Char.toLower) &&
            ".zip".toList.isSuffixOf url.toList then
      { ok := false, lastStatusCode := some 403 }
    else if resp.bodyReadFails then { ok := false, lastStatusCode := last }
    else { ok := true, lastStatusCode := last }

end HTTPClient

/- ===================== core/proxy_manager.py ===================== -/

namespace ProxyManager

/-- A proxy node's health fields: `latency = none` models
`float('inf')`, `some v` a finite measured latency (ordering is all the
selection logic uses). -/
structure ProxyNode where
  name : String
  latency : Option Nat
  fail_count : Nat
  deriving DecidableEq, Repr

/-- Strict comparison of latencies with `none` as infinity. -/
def latLT : Option Nat → Option Nat → Bool
  | none, _ => false
  | some _, none => true
  | some x, some y => x < y

/-- Non-strict comparison of latencies with `none` as infinity. -/
def latLE : Option Nat → Option Nat → Bool
  | none, none => true
  | none, some _ => false
  | some _, none => true
  | some x, some y => x ≤ y

/-- The region pre-filter of `select_fastest`: case-insensitive substring
match on the node name, falling back to the full pool when nothing
matches. -/
def regionFilter (region : Option String) (nodes : List ProxyNode) : List ProxyNode :=
  match region with
  | none => nodes
  | some r =>
    let f := nodes.filter fun n =>
      containsSub (r.toList.map Char.toLower) (n.name.toList.map Char.toLower)
    if f.isEmpty then nodes else f

/-- Python `min(nodes, key=lambda n: n.latency)`: the first node of
minimal latency, `none` on the empty list. -/
def minByLatency : List ProxyNode → Option ProxyNode
  | [] => none
  | n :: rest =>
    some (rest.foldl (fun best m => if latLT m.latency best.latency then m else best) n)

/-- `ProxyManager.select_fastest` (proxy_manager.py lines 210-236).
`reprobe` gives each node's state after the `test_all_nodes()` rescue
pass (the probe mutates latency and failure counts in place); the sort
that pass performs only reorders the pool and cannot change which
latencies survive the filters, so it is not modelled. A `none` result
models the `RuntimeError` raised when no node is available. Note the
rescue filter keeps any finite-latency node, dropping the
`fail_count < 3` condition the first pass used. -/
def select_fastest (nodes : List ProxyNode) (region : Option String)
    (reprobe : ProxyNode → ProxyNode) : Option ProxyNode :=
  let ns := regionFilter region nodes
  let avail := ns.filter fun n => n.latency.isSome && n.fail_count < 3
  let avail :=
    if avail.isEmpty then (ns.map reprobe).filter fun n => n.latency.isSome
    else avail
  minByLatency avail

/-- Modelled from the spec wording of `selectFastest`, for comparison:
after the re-probe it "retries the same filter", i.e. keeps the
failure-counter exclusion in the rescue pass as well. -/
def select_fastest_specVersion (nodes : List ProxyNode) (region : Option String)
    (reprobe : ProxyNode → ProxyNode) : Option ProxyNode :=
  let ns := regionFilter region nodes
  let avail := ns.filter fun n => n.latency.isSome && n.fail_count < 3
  let avail :=
    if avail.isEmpty then (ns.map reprobe).filter fun n => n.latency.isSome && n.fail_count < 3
    else avail
  minByLatency avail

end ProxyManager

/- ===================== src/downloader/downloader.py ===================== -/

namespace Src

/-- How one iteration of `download_report`'s attempt loop plays out:
an exception somewhere in the attempt (download-page GET, file system,
extraction, ...), `client.download_file` returning `False` (with
whether the recorded `_last_status_code` was 403), a written file that
is missing or under 1024 bytes, or full success. -/
inductive AttemptOutcome where
  | raises
  | dlFail (is403 : Bool)
  | tooSmall
  | ok
  deriving DecidableEq, Repr

/-- Environment of one `download_report` call: the outcome of each
attempt (1-based) and the proxy-switch callback — whether one was
supplied and what its k-th invocation (0-based) returns. -/
structure OrchEnv where
  out : Nat → AttemptOutcome
  cbPresent : Bool
  cbResult : Nat → Bool

/-- Orchestrator state observable across the call: the
`_consecutive_failures` counter, the attempt numbers at which the
rotation callback was invoked (in order, duplicates possible), the last
`update_report_status` write, and how many loop iterations ran. -/
structure OrchState where
  counter : Nat
  invocations : List Nat
  reportStatus : Option String
  attemptsDone : Nat
  deriving DecidableEq, Repr

/-- `Downloader._max_failures_before_switch` (downloader.py line 66). -/
def maxFailuresBeforeSwitch : Nat := 2

/-- `Downloader._try_switch_proxy` (downloader.py lines 72-88): invoke
the callback when present; on a truthy return reset the failure counter
and report a successful switch. -/
def trySwitchProxy (env : OrchEnv) (attempt : Nat) (st : OrchState) : Bool × OrchState :=
  if env.cbPresent then
    let k := st.invocations.length
    let st := { st with invocations := st.invocations ++ [attempt] }
    if env.cbResult k then (true, { st with counter := 0 })
    else (false, st)
  else (false, st)

/-- `Downloader._handle_download_failure` (downloader.py lines 90-111):
bump the counter; a 403 tries to switch at once, otherwise switching is
tried only from the threshold up. -/
def handleDownloadFailure (env : OrchEnv) (attempt : Nat) (is403 : Bool)
    (st : OrchState) : Bool × OrchState :=
  let st := { st with counter := st.counter + 1 }
  if is403 then trySwitchProxy env attempt st
  else if maxFailuresBeforeSwitch ≤ st.counter then trySwitchProxy env attempt st
  else (false, st)

/-- The `for attempt in range(1, max_attempts + 1)` loop of
`download_report` (downloader.py lines 175-258), returning the boolean
result and the final state; `fuel` counts iterations the loop may still
perform. Falling off the loop marks the report `failed`. -/
def downloadAttemptsGo (env : OrchEnv) (maxAttempts : Nat) :
    Nat → Nat → OrchState → Bool × OrchState
  | 0, _, st => (false, { st with reportStatus := some "failed" })
  | fuel + 1, attempt, st =>
    let st := { st with attemptsDone := st.attemptsDone + 1 }
    match env.out attempt with
    | .ok => (true, { st with reportStatus := some "downloaded", counter := 0 })
    | .raises =>
      let st :=
        if attempt < maxAttempts then (handleDownloadFailure env attempt false st).2
        else st
      downloadAttemptsGo env maxAttempts fuel (attempt + 1) st
    | .dlFail is403 =>
      if is403 && attempt < maxAttempts then
        let (switched, st2) := handleDownloadFailure env attempt true st
        if switched then downloadAttemptsGo env maxAttempts fuel (attempt + 1) st2
        else
          let st3 := (handleDownloadFailure env attempt false st2).2
          (false, { st3 with reportStatus := some "failed" })
      else
        let st2 := (handleDownloadFailure env attempt false st).2
        (false, { st2 with reportStatus := some "failed" })
    | .tooSmall =>
      if attempt < maxAttempts then
        let (switched, st2) := handleDownloadFailure env attempt false st
        if switched then downloadAttemptsGo env maxAttempts fuel (attempt + 1) st2
        else (false, { st2 with reportStatus := some "failed" })
      else (false, { st with reportStatus := some "failed" })

/-- The report fields `download_report` looks at before the loop. -/
structure ReportInfo where
  hasUrl : Bool
  fileExists : Bool
  fileSize : Nat
  deriving DecidableEq, Repr

/-- `Downloader.download_report` (downloader.py lines 117-258), with
`c0` the orchestrator's `_consecutive_failures` on entry. An absent
download URL returns `False` with no status write; an existing file
above 1024 bytes (without `force`) is treated as already downloaded,
resetting the counter, again with no status write. -/
def download_report (env : OrchEnv) (rep : ReportInfo)
    (force retryOn403 : Bool) (c0 : Nat) : Bool × OrchState :=
  let st0 : OrchState :=
    { counter := c0, invocations := [], reportStatus := none, attemptsDone := 0 }
  if !rep.hasUrl then (false, st0)
  else if !force && rep.fileExists && 1024 < rep.fileSize then
    (true, { st0 with counter := 0 })
  else
    let maxAttempts := if retryOn403 then 3 else 1
    downloadAttemptsGo env maxAttempts maxAttempts 1 st0

end Src

/- ===================== download/downloader.py ===================== -/

namespace Flat

/-- Status column of the `downloads` table. -/
inductive DStatus where
  | pending
  | completed
  | failed
  deriving DecidableEq, Repr

/-- One row of the `downloads` table (only the columns the claims
concern). -/
structure DRow where
  rowid : Nat
  status : DStatus
  deriving DecidableEq, Repr

/-- The store and file-system state one report sees: its `downloads`
rows in insertion order, its `extractions` rows (each holding the
download row it belongs to), the report's status column, whether the
destination zip exists on disk, and the next AUTOINCREMENT id. -/
structure FlatState where
  downloads : List DRow
  extractions : List Nat
  reportStatus : Option String
  fileExists : Bool
  nextId : Nat
  deriving DecidableEq, Repr

/-- How `client.download_file` plays out: success (file fully written),
failure with nothing written, or failure leaving a partial file behind
(the streamed write had begun). -/
inductive NetResult where
  | okWrite
  | failNoWrite
  | failPartialWrite
  deriving DecidableEq, Repr

/-- Environment of one `download_report` call on this downloader. -/
structure FlatEnv where
  net : NetResult
  extractOk : Bool
  deriving DecidableEq, Repr

/-- `Database.is_downloaded` (database.py lines 374-377): the most
recent `downloads` row (highest id) has status `completed`. -/
def is_downloaded (s : FlatState) : Bool :=
  match s.downloads.getLast? with
  | some row => row.status = DStatus.completed
  | none => false

/-- `Database.insert_download` (database.py lines 320-329): append a
`pending` row and return its id. -/
def insert_download (s : FlatState) : Nat × FlatState :=
  (s.nextId,
   { s with
     downloads := s.downloads ++ [{ rowid := s.nextId, status := .pending }],
     nextId := s.nextId + 1 })

/-- `Database.update_download_status` (database.py lines 331-359),
restricted to the status column. -/
def update_download_status (s : FlatState) (id : Nat) (st : DStatus) : FlatState :=
  { s with
    downloads := s.downloads.map fun r =>
      if r.rowid = id then { r with status := st } else r }

/-- `Downloader.download_report` (download/downloader.py lines 26-114).
The already-downloaded check comes first; a missing URL writes the
`no_download_url` status; an existing destination file (without
`force`) records a fresh completed download row and succeeds without
extraction; otherwise the network result decides, and an extraction row
is inserted only after a fresh successful download whose extraction
succeeded. -/
def download_report (env : FlatEnv) (hasUrl force : Bool)
    (s : FlatState) : Bool × FlatState :=
  if !force && is_downloaded s then (true, s)
  else if !hasUrl then (false, { s with reportStatus := some "no_download_url" })
  else if s.fileExists && !force then
    let (id, s) := insert_download s
    let s := update_download_status s id .completed
    (true, { s with reportStatus := some "downloaded" })
  else
    let (id, s) := insert_download s
    match env.net with
    | .okWrite =>
      let s := { s with fileExists := true }
      let s := update_download_status s id .completed
      let s := { s with reportStatus := some "downloaded" }
      let s :=
        if env.extractOk then { s with extractions := s.extractions ++ [id] } else s
      (true, s)
    | .failNoWrite => (false, update_download_status s id .failed)
    | .failPartialWrite =>
      (false, update_download_status { s with fileExists := true } id .failed)

/-- Number of `completed` rows in the `downloads` table. -/
def completedCount (s : FlatState) : Nat :=
  (s.downloads.filter fun r => r.status = DStatus.completed).length

end Flat

/- ===================== theorems ===================== -/

theorem stringMk_ne_empty {l : List Char} (h : l ≠ []) : String.mk l ≠ "" := by
  intro hc
  exact h (congrArg String.data hc)

/-- C8: `extract_timestamp_from_filename` returns the first eight-digit
run that forms a valid calendar date under the patterns tried in order
(leading eight digits; eight digits before or after an underscore;
first eight of a fourteen-digit run) and otherwise falls back to the
current date: `"202512040933142933045.zip"` gives `"20251204"`,
`"20241225_report.zip"` gives `"20241225"`, `"report_20241225.zip"`
gives `"20241225"`, and `"no_timestamp.zip"` gives the current date. -/
theorem c8_timestamp_literals (today : String) :
    FileManager.extract_timestamp_from_filename "202512040933142933045.zip" today =
      "20251204" ∧
    FileManager.extract_timestamp_from_filename "20241225_report.zip" today =
      "20241225" ∧
    FileManager.extract_timestamp_from_filename "report_20241225.zip" today =
      "20241225" ∧
    FileManager.extract_timestamp_from_filename "no_timestamp.zip" today = today := by
  refine ⟨rfl, rfl, rfl, rfl⟩

/-- C9: evaluation of `sanitize_filename` on the documented title. In the
default file-name mode the ideographic comma `、` (U+3001) survives,
because it is missing from `ILLEGAL_CHARS` — although the module's own
docstring example (file_manager.py line 190) shows this very title with
those commas replaced by underscores. Folder mode does replace them
through its stricter word-character pass. -/
theorem c9_sanitize_title_eval :
    FileManager.sanitize_filename "包装出海研究报告：纸包装、金属包装、塑料包装（33页）" false =
      "包装出海研究报告_纸包装、金属包装、塑料包装_33页" ∧
    '、' ∈ (FileManager.sanitize_filename
      "包装出海研究报告：纸包装、金属包装、塑料包装（33页）" false).toList ∧
    FileManager.sanitize_filename "包装出海研究报告：纸包装、金属包装、塑料包装（33页）" true =
      "包装出海研究报告_纸包装_金属包装_塑料包装_33页" ∧
    ((FileManager.sanitize_filename
        "包装出海研究报告：纸包装、金属包装、塑料包装（33页）" true).toList.all fun c =>
      !(c = '：' || c = ':' || c = '（' || c = '）' || c = '，' || c = ',' || c = '、')) = true ∧
    (FileManager.sanitize_filename
      "包装出海研究报告：纸包装、金属包装、塑料包装（33页）" true).length ≤
        FileManager.MAX_FILENAME_LENGTH := by
  refine ⟨by decide, by decide, by decide, by decide, by decide⟩

/-- C10: `sanitize_filename` never returns an empty string, and when the
processing pipeline strips the name part down to nothing the result is
the literal `unnamed` with the original extension re-appended. -/
theorem c10_sanitize_nonempty (s : String) (b : Bool) :
    FileManager.sanitize_filename s b ≠ "" ∧
    ((FileManager.sanitizePieces s.toList b).1 = [] →
      FileManager.sanitize_filename s b =
        String.mk ("unnamed".toList ++ (FileManager.sanitizePieces s.toList b).2)) := by
  rcases hp : FileManager.sanitizePieces s.toList b with ⟨name, ext⟩
  constructor
  · simp only [FileManager.sanitize_filename, hp]
    by_cases he : ext.isEmpty <;> by_cases hn : name.isEmpty <;>
      simp only [he, hn, Bool.not_true, Bool.not_false, if_true, if_false] <;>
      apply stringMk_ne_empty
    · simp [List.isEmpty_iff.mp he]
    · rcases name with _ | ⟨c, t⟩
      · simp at hn
      · simp
    · simp
    · rcases name with _ | ⟨c, t⟩
      · simp at hn
      · simp
  · intro h
    simp only at h
    subst h
    simp only [FileManager.sanitize_filename, hp]
    by_cases he : ext.isEmpty
    · simp [he, List.isEmpty_iff.mp he]
    · simp [he]

/-- C10 witness: on `"???.pdf"` everything of the name part is stripped
and the result is `unnamed.pdf`. -/
theorem c10_sanitize_nonempty_witness :
    FileManager.sanitize_filename "???.pdf" false ≠ "" ∧
    FileManager.sanitize_filename "???.pdf" false =
      String.mk ("unnamed".toList ++ (FileManager.sanitizePieces "???.pdf".toList false).2) :=
  ⟨(c10_sanitize_nonempty "???.pdf" false).1,
   (c10_sanitize_nonempty "???.pdf" false).2 (by decide)⟩

/-- C5 counterexample: on a disguised HTML body (status 200,
`text/html` content type, `.zip` target) `download_file` returns
`False` but records 403 — not the observed status code 200 — so the
"records the last observed status code" part of the claim fails in the
disguised-HTML case. -/
theorem c5_download_file_counterexample :
    HTTPClient.download_file "https://cdn.example/report.zip"
        { raisesOnRequest := false, status := 200,
          contentType := "text/html; charset=utf-8", bodyReadFails := false } =
      { ok := false, lastStatusCode := some 403 } ∧
    (HTTPClient.download_file "https://cdn.example/report.zip"
        { raisesOnRequest := false, status := 200,
          contentType := "text/html; charset=utf-8", bodyReadFails := false }).lastStatusCode ≠
      some 200 := by
  refine ⟨by decide, by decide⟩

/-- C5 amended: `download_file` returns a boolean without raising for the
two handled failure categories — `False` on a 403 status, and `False`
on an HTML content type when the URL ends in `.zip` — and on success it
records the observed status code; in the 403 case the observed code
(403) is recorded, while in the disguised-HTML case the code
deliberately records 403 in place of the observed status. -/
theorem c5_download_file_amended (url : String) (resp : HTTPClient.DLResponse)
    (hnr : resp.raisesOnRequest = false) :
    (resp.status = 403 →
      HTTPClient.download_file url resp = { ok := false, lastStatusCode := some 403 }) ∧
    ((containsSub "text/html".toList (resp.contentType.toList.map Char.toLower) &&
        ".zip".toList.isSuffixOf url.toList) = true →
      resp.status ≠ 403 → ¬(400 ≤ resp.status ∧ resp.status ≤ 599) →
      HTTPClient.download_file url resp = { ok := false, lastStatusCode := some 403 }) ∧
    ((HTTPClient.download_file url resp).ok = true →
      (HTTPClient.download_file url resp).lastStatusCode = some resp.status) := by
  obtain ⟨rr, stat, ct, bf⟩ := resp
  simp only at hnr
  subst hnr
  refine ⟨?_, ?_, ?_⟩
  · intro h
    simp only at h
    subst h
    simp [HTTPClient.download_file]
  · intro hhtml h403 hrange
    simp only at hhtml h403 hrange
    have hr : (decide (400 ≤ stat) && decide (stat ≤ 599)) = false := by
      rcases Nat.lt_or_ge stat 400 with h | h
      · simp [Nat.not_le.mpr h]
      · have h2 : ¬ stat ≤ 599 := fun hc => hrange ⟨h, hc⟩
        simp [h2]
    simp only [String.toList] at hhtml
    simp [HTTPClient.download_file, h403, hr, hhtml]
  · intro hok
    simp only [HTTPClient.download_file] at hok ⊢
    split_ifs at hok ⊢ <;> simp_all

/-- C5 amended witness: a plain 403 response is reported as a `False`
return with 403 recorded. -/
theorem c5_download_file_amended_witness :
    HTTPClient.download_file "https://cdn.example/a.zip"
        { raisesOnRequest := false, status := 403, contentType := "", bodyReadFails := false } =
      { ok := false, lastStatusCode := some 403 } :=
  (c5_download_file_amended "https://cdn.example/a.zip"
    { raisesOnRequest := false, status := 403, contentType := "", bodyReadFails := false }
    rfl).1 rfl

/-- C6 counterexample: the src-package orchestrator
(`src/downloader/downloader.py`), handed a report with no download URL,
returns `False` without writing any report status — it does not set
`no_download_url`. -/
theorem c6_no_url_counterexample :
    Src.download_report
        { out := fun _ => Src.AttemptOutcome.ok, cbPresent := false, cbResult := fun _ => false }
        { hasUrl := false, fileExists := false, fileSize := 0 } false true 0 =
      (false, { counter := 0, invocations := [], reportStatus := none, attemptsDone := 0 }) ∧
    (none : Option String) ≠ some "no_download_url" := by
  refine ⟨by decide, by decide⟩

/-- C6 amended: a report dispatched with an empty download URL yields
`False` from both orchestrators without being marked `failed`: the flat
orchestrator (`download/downloader.py`) sets the distinct terminal
status `no_download_url`, while the src-package orchestrator
(`src/downloader/downloader.py`) writes no status at all, leaving the
prior one in place. -/
theorem c6_no_url_amended (envF : Flat.FlatEnv) (s : Flat.FlatState)
    (envS : Src.OrchEnv) (rep : Src.ReportInfo) (retry : Bool) (c0 : Nat)
    (hnd : Flat.is_downloaded s = false) (hurl : rep.hasUrl = false) :
    Flat.download_report envF false false s =
      (false, { s with reportStatus := some "no_download_url" }) ∧
    some "no_download_url" ≠ some "failed" ∧
    (Src.download_report envS rep false retry c0).1 = false ∧
    (Src.download_report envS rep false retry c0).2.reportStatus = none := by
  refine ⟨?_, by decide, ?_, ?_⟩
  · simp [Flat.download_report, hnd]
  · simp [Src.download_report, hurl]
  · simp [Src.download_report, hurl]

/-- C6 amended witness: concrete instance on a fresh report row. -/
theorem c6_no_url_amended_witness :
    Flat.download_report { net := Flat.NetResult.okWrite, extractOk := true } false false
        { downloads := [], extractions := [], reportStatus := none,
          fileExists := false, nextId := 1 } =
      (false, { downloads := [], extractions := [], reportStatus := some "no_download_url",
                fileExists := false, nextId := 1 }) ∧
    some "no_download_url" ≠ some "failed" ∧
    (Src.download_report
        { out := fun _ => Src.AttemptOutcome.raises, cbPresent := false,
          cbResult := fun _ => false }
        { hasUrl := false, fileExists := false, fileSize := 0 } false true 0).1 = false ∧
    (Src.download_report
        { out := fun _ => Src.AttemptOutcome.raises, cbPresent := false,
          cbResult := fun _ => false }
        { hasUrl := false, fileExists := false, fileSize := 0 } false true 0).2.reportStatus =
      none :=
  c6_no_url_amended { net := Flat.NetResult.okWrite, extractOk := true }
    { downloads := [], extractions := [], reportStatus := none,
      fileExists := false, nextId := 1 }
    { out := fun _ => Src.AttemptOutcome.raises, cbPresent := false,
      cbResult := fun _ => false }
    { hasUrl := false, fileExists := false, fileSize := 0 } true 0 (by decide) rfl

/-- C1 counterexample: a first attempt whose `download_file` call fails
with a non-403 status leaves the consecutive-failure counter at 1,
below the threshold 2 — yet the orchestrator does not retry: it marks
the report `failed` and returns after a single attempt out of three,
contradicting "otherwise the orchestrator retries without switching". -/
theorem c1_escalation_counterexample :
    Src.download_report
        { out := fun _ => Src.AttemptOutcome.dlFail false, cbPresent := true,
          cbResult := fun _ => true }
        { hasUrl := true, fileExists := false, fileSize := 0 } false true 0 =
      (false, { counter := 1, invocations := [], reportStatus := some "failed",
                attemptsDone := 1 }) ∧
    (1 : Nat) < 3 := by
  refine ⟨by decide, by decide⟩

/-- C1 amended: on a fresh orchestrator with a callback supplied, (i) a
non-final failed attempt recording 403 invokes the rotation callback
immediately on that attempt; (ii) two consecutive exception-type
non-403 failures invoke the callback exactly once, at the second
attempt, before the third attempt runs; (iii) a non-403 `download_file`
failure below the threshold aborts the report immediately — one
attempt, no invocation — rather than retrying. -/
theorem c1_escalation_amended (cbv : Bool) (tail : Nat → Src.AttemptOutcome) :
    Src.download_report
        { out := fun n => if n = 1 then Src.AttemptOutcome.dlFail true else Src.AttemptOutcome.ok,
          cbPresent := true, cbResult := fun _ => true }
        { hasUrl := true, fileExists := false, fileSize := 0 } false true 0 =
      (true, { counter := 0, invocations := [1], reportStatus := some "downloaded",
               attemptsDone := 2 }) ∧
    Src.download_report
        { out := fun n => if n ≤ 2 then Src.AttemptOutcome.raises else Src.AttemptOutcome.ok,
          cbPresent := true, cbResult := fun _ => cbv }
        { hasUrl := true, fileExists := false, fileSize := 0 } false true 0 =
      (true, { counter := 0, invocations := [2], reportStatus := some "downloaded",
               attemptsDone := 3 }) ∧
    ((Src.download_report
        { out := fun n => if n = 1 then Src.AttemptOutcome.dlFail false else tail n,
          cbPresent := true, cbResult := fun _ => cbv }
        { hasUrl := true, fileExists := false, fileSize := 0 } false true 0).1,
     (Src.download_report
        { out := fun n => if n = 1 then Src.AttemptOutcome.dlFail false else tail n,
          cbPresent := true, cbResult := fun _ => cbv }
        { hasUrl := true, fileExists := false, fileSize := 0 } false true 0).2.attemptsDone,
     (Src.download_report
        { out := fun n => if n = 1 then Src.AttemptOutcome.dlFail false else tail n,
          cbPresent := true, cbResult := fun _ => cbv }
        { hasUrl := true, fileExists := false, fileSize := 0 } false true 0).2.invocations) =
      (false, 1, []) := by
  refine ⟨by decide, ?_, rfl⟩
  cases cbv <;> decide

/-- C3 counterexample: a report whose single attempt fails with an
undersized file is marked `failed` after exactly one attempt although
the configured maximum is three — the orchestrator does not perform
"exactly the configured maximum number of attempts". -/
theorem c3_retry_bound_counterexample :
    Src.download_report
        { out := fun _ => Src.AttemptOutcome.tooSmall, cbPresent := true,
          cbResult := fun _ => false }
        { hasUrl := true, fileExists := false, fileSize := 0 } false true 0 =
      (false, { counter := 1, invocations := [], reportStatus := some "failed",
                attemptsDone := 1 }) ∧
    (1 : Nat) ≠ 3 := by
  refine ⟨by decide, by decide⟩

/-- C4 counterexample: after a first non-forced invocation fails leaving
a partial file on disk, the second non-forced invocation finds the
destination file existing (no size threshold is applied) and records a
fresh `completed` download row instead of short-circuiting without one. -/
theorem c4_idempotence_counterexample :
    (Flat.download_report { net := Flat.NetResult.failPartialWrite, extractOk := true }
        true false
        { downloads := [], extractions := [], reportStatus := some "ready",
          fileExists := false, nextId := 1 }).2.fileExists = true ∧
    Flat.completedCount
      (Flat.download_report { net := Flat.NetResult.failPartialWrite, extractOk := true }
        true false
        { downloads := [], extractions := [], reportStatus := some "ready",
          fileExists := false, nextId := 1 }).2 = 0 ∧
    (Flat.download_report { net := Flat.NetResult.okWrite, extractOk := true } true false
        (Flat.download_report { net := Flat.NetResult.failPartialWrite, extractOk := true }
          true false
          { downloads := [], extractions := [], reportStatus := some "ready",
            fileExists := false, nextId := 1 }).2).1 = true ∧
    (Flat.download_report { net := Flat.NetResult.okWrite, extractOk := true } true false
        (Flat.download_report { net := Flat.NetResult.failPartialWrite, extractOk := true }
          true false
          { downloads := [], extractions := [], reportStatus := some "ready",
            fileExists := false, nextId := 1 }).2).2.downloads =
      [{ rowid := 1, status := Flat.DStatus.failed },
       { rowid := 2, status := Flat.DStatus.completed }] := by
  refine ⟨by decide, by decide, by decide, by decide⟩

/-- C4 amended: starting from a fresh report record, two non-forced
invocations of the flat downloader never leave more than one
`completed` download row nor more than one extraction row — the guard
being the prior-completed-download check, which makes the second
invocation a no-op whenever the first returned success; when instead
the destination file pre-exists without a completed row, the invocation
records a (first) completed row for it and succeeds without running
extraction. -/
theorem c4_idempotence_amended (env1 env2 : Flat.FlatEnv) (hasUrl fe : Bool) :
    Flat.completedCount
      (Flat.download_report env2 hasUrl false
        (Flat.download_report env1 hasUrl false
          { downloads := [], extractions := [], reportStatus := some "ready",
            fileExists := fe, nextId := 1 }).2).2 ≤ 1 ∧
    (Flat.download_report env2 hasUrl false
        (Flat.download_report env1 hasUrl false
          { downloads := [], extractions := [], reportStatus := some "ready",
            fileExists := fe, nextId := 1 }).2).2.extractions.length ≤ 1 ∧
    ((Flat.download_report env1 hasUrl false
        { downloads := [], extractions := [], reportStatus := some "ready",
          fileExists := fe, nextId := 1 }).1 = true →
      Flat.download_report env2 hasUrl false
          (Flat.download_report env1 hasUrl false
            { downloads := [], extractions := [], reportStatus := some "ready",
              fileExists := fe, nextId := 1 }).2 =
        (true,
         (Flat.download_report env1 hasUrl false
            { downloads := [], extractions := [], reportStatus := some "ready",
              fileExists := fe, nextId := 1 }).2)) := by
  obtain ⟨n1, e1⟩ := env1
  obtain ⟨n2, e2⟩ := env2
  cases n1 <;> cases n2 <;> cases e1 <;> cases e2 <;> cases hasUrl <;> cases fe <;> decide

/-- C4 amended witness: a successful first download makes the second
non-forced invocation a strict no-op. -/
theorem c4_idempotence_amended_witness :
    Flat.download_report { net := Flat.NetResult.okWrite, extractOk := true } true false
        (Flat.download_report { net := Flat.NetResult.okWrite, extractOk := true } true false
          { downloads := [], extractions := [], reportStatus := some "ready",
            fileExists := false, nextId := 1 }).2 =
      (true,
       (Flat.download_report { net := Flat.NetResult.okWrite, extractOk := true } true false
          { downloads := [], extractions := [], reportStatus := some "ready",
            fileExists := false, nextId := 1 }).2) :=
  (c4_idempotence_amended { net := Flat.NetResult.okWrite, extractOk := true }
    { net := Flat.NetResult.okWrite, extractOk := true } true false).2.2
    (by decide)

theorem latLE_refl (a : Option Nat) : ProxyManager.latLE a a = true := by
  cases a <;> simp [ProxyManager.latLE]

theorem latLT_imp_latLE {a b : Option Nat} (h : ProxyManager.latLT a b = true) :
    ProxyManager.latLE a b = true := by
  cases a <;> cases b <;> simp_all [ProxyManager.latLT, ProxyManager.latLE]
  omega

theorem not_latLT_imp_latLE {a b : Option Nat} (h : ProxyManager.latLT a b = false) :
    ProxyManager.latLE b a = true := by
  cases a <;> cases b <;> simp_all [ProxyManager.latLT, ProxyManager.latLE]

theorem latLE_trans {a b c : Option Nat} (h1 : ProxyManager.latLE a b = true)
    (h2 : ProxyManager.latLE b c = true) : ProxyManager.latLE a c = true := by
  cases a <;> cases b <;> cases c <;> simp_all [ProxyManager.latLE]
  omega

theorem foldlMin_spec (l : List ProxyManager.ProxyNode) :
    ∀ acc : ProxyManager.ProxyNode,
      (l.foldl (fun best m => if ProxyManager.latLT m.latency best.latency then m else best)
          acc = acc ∨
        l.foldl (fun best m => if ProxyManager.latLT m.latency best.latency then m else best)
          acc ∈ l) ∧
      ProxyManager.latLE
        (l.foldl (fun best m => if ProxyManager.latLT m.latency best.latency then m else best)
          acc).latency acc.latency = true ∧
      ∀ x ∈ l,
        ProxyManager.latLE
          (l.foldl (fun best m => if ProxyManager.latLT m.latency best.latency then m else best)
            acc).latency x.latency = true := by
  induction l with
  | nil => intro acc; exact ⟨Or.inl rfl, latLE_refl _, by simp⟩
  | cons h t ih =>
    intro acc
    simp only [List.foldl_cons]
    by_cases hlt : ProxyManager.latLT h.latency acc.latency = true
    · rw [if_pos hlt]
      rcases ih h with ⟨hmem, hacc, hall⟩
      refine ⟨?_, ?_, ?_⟩
      · rcases hmem with he | hm
        · exact Or.inr (by rw [he]; exact List.mem_cons_self h t)
        · exact Or.inr (List.mem_cons_of_mem h hm)
      · exact latLE_trans hacc (latLT_imp_latLE hlt)
      · intro x hx
        rcases List.mem_cons.mp hx with he | hm
        · rw [he]; exact hacc
        · exact hall x hm
    · rw [if_neg hlt]
      rcases ih acc with ⟨hmem, hacc, hall⟩
      refine ⟨?_, ?_, ?_⟩
      · rcases hmem with he | hm
        · exact Or.inl he
        · exact Or.inr (List.mem_cons_of_mem h hm)
      · exact hacc
      · intro x hx
        rcases List.mem_cons.mp hx with he | hm
        · rw [he]
          exact latLE_trans hacc
            (not_latLT_imp_latLE (Bool.eq_false_iff.mpr hlt))
        · exact hall x hm

theorem minByLatency_spec (l : List ProxyManager.ProxyNode) (hl : l ≠ []) :
    ∃ m, ProxyManager.minByLatency l = some m ∧ m ∈ l ∧
      ∀ x ∈ l, ProxyManager.latLE m.latency x.latency = true := by
  rcases l with _ | ⟨n, rest⟩
  · exact absurd rfl hl
  · rcases foldlMin_spec rest n with ⟨hmem, hacc, hall⟩
    refine ⟨_, rfl, ?_, ?_⟩
    · rcases hmem with he | hm
      · rw [he]; exact List.mem_cons_self n rest
      · exact List.mem_cons_of_mem n hm
    · intro x hx
      rcases List.mem_cons.mp hx with he | hm
      · rw [he]; exact hacc
      · exact hall x hm

/-- C7 counterexample: a pool holding one node with infinite latency and
failure counter 3. The first pass excludes it; after the re-probe makes
its latency finite, `select_fastest` returns it even though its failure
counter is still 3 — the rescue pass does not retry the same filter;
the spec-faithful version raises the exhaustion error instead. -/
theorem c7_select_fastest_counterexample :
    ProxyManager.select_fastest
        [{ name := "HK-01", latency := none, fail_count := 3 }] none
        (fun n => { n with latency := some 120 }) =
      some { name := "HK-01", latency := some 120, fail_count := 3 } ∧
    ¬ ({ name := "HK-01", latency := some 120, fail_count := 3 } :
        ProxyManager.ProxyNode).fail_count < 3 ∧
    ProxyManager.select_fastest_specVersion
        [{ name := "HK-01", latency := none, fail_count := 3 }] none
        (fun n => { n with latency := some 120 }) = none := by
  refine ⟨by decide, by decide, by decide⟩

/-- C7 amended: `select_fastest` filters by case-insensitive substring
match on the name (falling back to the full pool when nothing matches),
excludes nodes with infinite latency or failure counter at least 3, and
returns a minimum-latency survivor; when no node survives it re-probes
the nodes once and retries with the *latency-only* filter — the
failure-counter exclusion is not re-applied — and signals exhaustion
(`none`, the `RuntimeError`) only when even that set is empty. -/
theorem c7_select_fastest_amended (nodes : List ProxyManager.ProxyNode)
    (region : Option String) (reprobe : ProxyManager.ProxyNode → ProxyManager.ProxyNode) :
    ((ProxyManager.regionFilter region nodes).filter
        (fun n => n.latency.isSome && n.fail_count < 3) ≠ [] →
      ∃ m, ProxyManager.select_fastest nodes region reprobe = some m ∧
        m ∈ (ProxyManager.regionFilter region nodes).filter
          (fun n => n.latency.isSome && n.fail_count < 3) ∧
        ∀ x ∈ (ProxyManager.regionFilter region nodes).filter
          (fun n => n.latency.isSome && n.fail_count < 3),
          ProxyManager.latLE m.latency x.latency = true) ∧
    ((ProxyManager.regionFilter region nodes).filter
        (fun n => n.latency.isSome && n.fail_count < 3) = [] →
      ((ProxyManager.regionFilter region nodes).map reprobe).filter
        (fun n => n.latency.isSome) ≠ [] →
      ∃ m, ProxyManager.select_fastest nodes region reprobe = some m ∧
        m ∈ ((ProxyManager.regionFilter region nodes).map reprobe).filter
          (fun n => n.latency.isSome) ∧
        ∀ x ∈ ((ProxyManager.regionFilter region nodes).map reprobe).filter
          (fun n => n.latency.isSome),
          ProxyManager.latLE m.latency x.latency = true) ∧
    ((ProxyManager.regionFilter region nodes).filter
        (fun n => n.latency.isSome && n.fail_count < 3) = [] →
      ((ProxyManager.regionFilter region nodes).map reprobe).filter
        (fun n => n.latency.isSome) = [] →
      ProxyManager.select_fastest nodes region reprobe = none) := by
  refine ⟨?_, ?_, ?_⟩
  · intro h1
    have he : ((ProxyManager.regionFilter region nodes).filter
        (fun n => n.latency.isSome && n.fail_count < 3)).isEmpty = false := by
      simpa [List.isEmpty_iff] using h1
    rcases minByLatency_spec _ h1 with ⟨m, hm, hmem, hall⟩
    refine ⟨m, ?_, hmem, hall⟩
    simpa [ProxyManager.select_fastest, he] using hm
  · intro h1 h2
    have he : ((ProxyManager.regionFilter region nodes).filter
        (fun n => n.latency.isSome && n.fail_count < 3)).isEmpty = true := by
      simpa [List.isEmpty_iff] using h1
    rcases minByLatency_spec _ h2 with ⟨m, hm, hmem, hall⟩
    refine ⟨m, ?_, hmem, hall⟩
    simpa [ProxyManager.select_fastest, he] using hm
  · intro h1 h2
    have he : ((ProxyManager.regionFilter region nodes).filter
        (fun n => n.latency.isSome && n.fail_count < 3)).isEmpty = true := by
      simpa [List.isEmpty_iff] using h1
    simp [ProxyManager.select_fastest, he, h2, ProxyManager.minByLatency]

/-- C7 amended witness: with two healthy nodes the faster one is
selected by the first pass. -/
theorem c7_select_fastest_amended_witness :
    ∃ m, ProxyManager.select_fastest
        [{ name := "US-01", latency := some 200, fail_count := 0 },
         { name := "HK-02", latency := some 40, fail_count := 1 }] none (fun n => n) =
        some m ∧
      m ∈ (ProxyManager.regionFilter none
          [{ name := "US-01", latency := some 200, fail_count := 0 },
           { name := "HK-02", latency := some 40, fail_count := 1 }]).filter
        (fun n => n.latency.isSome && n.fail_count < 3) ∧
      ∀ x ∈ (ProxyManager.regionFilter none
          [{ name := "US-01", latency := some 200, fail_count := 0 },
           { name := "HK-02", latency := some 40, fail_count := 1 }]).filter
        (fun n => n.latency.isSome && n.fail_count < 3),
        ProxyManager.latLE m.latency x.latency = true :=
  (c7_select_fastest_amended
    [{ name := "US-01", latency := some 200, fail_count := 0 },
     { name := "HK-02", latency := some 40, fail_count := 1 }] none (fun n => n)).1
    (by decide)

theorem range_pow_shift (base k : Nat) :
    2 ^ base :: (List.range k).map (fun i => 2 ^ (base + 1 + i)) =
      (List.range (k + 1)).map fun i => 2 ^ (base + i) := by
  rw [List.range_succ_eq_map, List.map_cons, List.map_map]
  congr 1
  apply List.map_congr_left
  intro a _
  simp only [Function.comp_apply]
  congr 1
  omega

theorem requestGo_403 (env : HTTPClient.ReqEnv) (maxR : Nat) :
    ∀ fuel attempt done sleeps le a,
      attempt ≤ a → a < attempt + fuel → a ≤ maxR →
      env.resp a = HTTPClient.ReqOutcome.httpErr 403 →
      (∀ j, j < a → attempt ≤ j → HTTPClient.isFailureNon403 (env.resp j) = true) →
      HTTPClient.requestGo env maxR fuel attempt done sleeps le =
        { result := Except.error (.http 403),
          attemptsMade := done + (a - attempt) + 1,
          sleeps := sleeps ++ (List.range (a - attempt)).map fun i => 2 ^ (attempt + i) } := by
  intro fuel
  induction fuel with
  | zero =>
    intro attempt _ _ _ a h1 h2 _ _ _
    exact absurd h2 (by omega)
  | succ n ih =>
    intro attempt done sleeps le a h1 h2 h3 h4 h5
    by_cases heq : attempt = a
    · subst heq
      simp only [HTTPClient.requestGo, h4]
      simp
    · have hlt : attempt < a := lt_of_le_of_ne h1 heq
      have hfail := h5 attempt hlt le_rfl
      have hltR : attempt < maxR := by omega
      have hshift : a - attempt = (a - (attempt + 1)) + 1 := by omega
      rcases hro : env.resp attempt with _ | s | _
      · rw [hro] at hfail
        simp [HTTPClient.isFailureNon403] at hfail
      · rw [hro] at hfail
        have hs : ¬ s = 403 := by
          simpa [HTTPClient.isFailureNon403] using hfail
        simp only [HTTPClient.requestGo, hro]
        rw [if_neg hs, if_pos hltR,
          ih (attempt + 1) (done + 1) (sleeps ++ [2 ^ attempt]) (some (.http s)) a
            (by omega) (by omega) h3 h4 (fun j hj1 hj2 => h5 j hj1 (by omega))]
        simp only [HTTPClient.ReqTrace.mk.injEq, true_and]
        refine ⟨by omega, ?_⟩
        rw [List.append_assoc, hshift, List.singleton_append, range_pow_shift]
      · simp only [HTTPClient.requestGo, hro]
        rw [if_pos hltR,
          ih (attempt + 1) (done + 1) (sleeps ++ [2 ^ attempt]) (some .conn) a
            (by omega) (by omega) h3 h4 (fun j hj1 hj2 => h5 j hj1 (by omega))]
        simp only [HTTPClient.ReqTrace.mk.injEq, true_and]
        refine ⟨by omega, ?_⟩
        rw [List.append_assoc, hshift, List.singleton_append, range_pow_shift]

theorem requestGo_allfail (env : HTTPClient.ReqEnv) (maxR : Nat) :
    ∀ fuel attempt done sleeps le,
      1 ≤ fuel → attempt + fuel = maxR + 1 →
      (∀ j, j ≤ maxR → attempt ≤ j → HTTPClient.isFailureNon403 (env.resp j) = true) →
      HTTPClient.requestGo env maxR fuel attempt done sleeps le =
        { result := Except.error (HTTPClient.errOf (env.resp maxR)),
          attemptsMade := done + fuel,
          sleeps := sleeps ++ (List.range (fuel - 1)).map fun i => 2 ^ (attempt + i) } := by
  intro fuel
  induction fuel with
  | zero =>
    intro _ _ _ _ h1 _ _
    exact absurd h1 (by omega)
  | succ n ih =>
    intro attempt done sleeps le _ h2 h3
    rcases Nat.eq_zero_or_pos n with hn | hn
    · subst hn
      have ha : attempt = maxR := by omega
      have hfail := h3 attempt (by omega) le_rfl
      rcases hro : env.resp attempt with _ | s | _
      · rw [hro] at hfail
        simp [HTTPClient.isFailureNon403] at hfail
      · rw [hro] at hfail
        have hs : ¬ s = 403 := by
          simpa [HTTPClient.isFailureNon403] using hfail
        simp only [HTTPClient.requestGo, hro]
        rw [if_neg hs, if_neg (by omega : ¬ attempt < maxR), ← ha]
        simp [HTTPClient.errOf, hro]
      · simp only [HTTPClient.requestGo, hro]
        rw [if_neg (by omega : ¬ attempt < maxR), ← ha]
        simp [HTTPClient.errOf, hro]
    · have hltR : attempt < maxR := by omega
      have hfail := h3 attempt (by omega) le_rfl
      have hshift : n + 1 - 1 = (n - 1) + 1 := by omega
      rcases hro : env.resp attempt with _ | s | _
      · rw [hro] at hfail
        simp [HTTPClient.isFailureNon403] at hfail
      · rw [hro] at hfail
        have hs : ¬ s = 403 := by
          simpa [HTTPClient.isFailureNon403] using hfail
        simp only [HTTPClient.requestGo, hro]
        rw [if_neg hs, if_pos hltR,
          ih (attempt + 1) (done + 1) (sleeps ++ [2 ^ attempt]) (some (.http s))
            (by omega) (by omega) (fun j hj1 hj2 => h3 j hj1 (by omega))]
        simp only [HTTPClient.ReqTrace.mk.injEq, true_and]
        refine ⟨by omega, ?_⟩
        rw [List.append_assoc, hshift, List.singleton_append, range_pow_shift]
      · simp only [HTTPClient.requestGo, hro]
        rw [if_pos hltR,
          ih (attempt + 1) (done + 1) (sleeps ++ [2 ^ attempt]) (some .conn)
            (by omega) (by omega) (fun j hj1 hj2 => h3 j hj1 (by omega))]
        simp only [HTTPClient.ReqTrace.mk.injEq, true_and]
        refine ⟨by omega, ?_⟩
        rw [List.append_assoc, hshift, List.singleton_append, range_pow_shift]

theorem transient_isFailureNon403 {o : HTTPClient.ReqOutcome}
    (h : HTTPClient.isTransient o = true) : HTTPClient.isFailureNon403 o = true := by
  rcases o with _ | s | _ <;>
    simp_all [HTTPClient.isTransient, HTTPClient.isFailureNon403]
  omega

/-- C2: the session client's `_request` raises a 403 response to the
caller on the very attempt that observes it, with no further attempt,
while a run of transient failures (5xx statuses, timeouts, connection
errors) is retried up to the configured maximum number of attempts,
sleeping exponentially growing waits (2, 4, 8, ... seconds) between
attempts, and the error of the last attempt is raised at the end. -/
theorem c2_request_retry_policy (env : HTTPClient.ReqEnv) (maxR : Nat) (hmax : 1 ≤ maxR) :
    (∀ a, 1 ≤ a → a ≤ maxR →
      env.resp a = HTTPClient.ReqOutcome.httpErr 403 →
      (∀ j, j < a → 1 ≤ j → HTTPClient.isFailureNon403 (env.resp j) = true) →
      HTTPClient.request env maxR =
        { result := Except.error (.http 403), attemptsMade := a,
          sleeps := (List.range (a - 1)).map fun i => 2 ^ (1 + i) }) ∧
    ((∀ j, j ≤ maxR → 1 ≤ j → HTTPClient.isTransient (env.resp j) = true) →
      HTTPClient.request env maxR =
        { result := Except.error (HTTPClient.errOf (env.resp maxR)), attemptsMade := maxR,
          sleeps := (List.range (maxR - 1)).map fun i => 2 ^ (1 + i) }) := by
  constructor
  · intro a ha1 ha2 h403 hbefore
    rw [HTTPClient.request,
      requestGo_403 env maxR maxR 1 0 [] none a ha1 (by omega) ha2 h403
        (fun j hj1 hj2 => hbefore j hj1 hj2)]
    simp only [HTTPClient.ReqTrace.mk.injEq, true_and]
    exact ⟨by omega, by simp⟩
  · intro hall
    rw [HTTPClient.request,
      requestGo_allfail env maxR maxR 1 0 [] none hmax (by omega)
        (fun j hj1 hj2 => transient_isFailureNon403 (hall j hj1 hj2))]
    simp only [HTTPClient.ReqTrace.mk.injEq, true_and]
    exact ⟨by omega, by simp⟩

/-- C2 witness: with three attempts configured, a connection error, then
a 503, then a 403 end in the 403 being raised on attempt 3 after sleeps
of 2 and 4 seconds. -/
theorem c2_request_retry_policy_witness :
    HTTPClient.request
        { resp := fun n =>
            if n = 1 then HTTPClient.ReqOutcome.reqErr
            else if n = 2 then HTTPClient.ReqOutcome.httpErr 503
            else HTTPClient.ReqOutcome.httpErr 403 } 3 =
      { result := Except.error (.http 403), attemptsMade := 3,
        sleeps := (List.range (3 - 1)).map fun i => 2 ^ (1 + i) } :=
  (c2_request_retry_policy
    { resp := fun n =>
        if n = 1 then HTTPClient.ReqOutcome.reqErr
        else if n = 2 then HTTPClient.ReqOutcome.httpErr 503
        else HTTPClient.ReqOutcome.httpErr 403 } 3 (by decide)).1 3 (by decide) (by decide)
    rfl (by decide)

theorem trySwitchProxy_snd_attemptsDone (env : Src.OrchEnv) (a : Nat) (st : Src.OrchState) :
    (Src.trySwitchProxy env a st).2.attemptsDone = st.attemptsDone := by
  simp only [Src.trySwitchProxy]
  by_cases h1 : env.cbPresent = true
  · rw [if_pos h1]
    by_cases h2 : env.cbResult st.invocations.length = true
    · rw [if_pos h2]
    · rw [if_neg h2]
  · rw [if_neg h1]

theorem trySwitchProxy_snd_reportStatus (env : Src.OrchEnv) (a : Nat) (st : Src.OrchState) :
    (Src.trySwitchProxy env a st).2.reportStatus = st.reportStatus := by
  simp only [Src.trySwitchProxy]
  by_cases h1 : env.cbPresent = true
  · rw [if_pos h1]
    by_cases h2 : env.cbResult st.invocations.length = true
    · rw [if_pos h2]
    · rw [if_neg h2]
  · rw [if_neg h1]

theorem handleDownloadFailure_snd_attemptsDone (env : Src.OrchEnv) (a : Nat) (b : Bool)
    (st : Src.OrchState) :
    (Src.handleDownloadFailure env a b st).2.attemptsDone = st.attemptsDone := by
  simp only [Src.handleDownloadFailure]
  split_ifs <;> simp [trySwitchProxy_snd_attemptsDone]

theorem downloadAttemptsGo_allfail (env : Src.OrchEnv) (maxA : Nat)
    (hf : ∀ n, env.out n ≠ Src.AttemptOutcome.ok) :
    ∀ fuel attempt st,
      (Src.downloadAttemptsGo env maxA fuel attempt st).1 = false ∧
      (Src.downloadAttemptsGo env maxA fuel attempt st).2.reportStatus = some "failed" ∧
      st.attemptsDone ≤ (Src.downloadAttemptsGo env maxA fuel attempt st).2.attemptsDone ∧
      (Src.downloadAttemptsGo env maxA fuel attempt st).2.attemptsDone ≤
        st.attemptsDone + fuel ∧
      (1 ≤ fuel →
        st.attemptsDone + 1 ≤ (Src.downloadAttemptsGo env maxA fuel attempt st).2.attemptsDone) := by
  intro fuel
  induction fuel with
  | zero =>
    intro attempt st
    simp [Src.downloadAttemptsGo]
  | succ n ih =>
    intro attempt st
    have h1 : ({ st with attemptsDone := st.attemptsDone + 1 } :
        Src.OrchState).attemptsDone = st.attemptsDone + 1 := rfl
    rcases ho : env.out attempt with _ | b | _ | _
    · -- raises
      simp only [Src.downloadAttemptsGo, ho]
      by_cases hlt : attempt < maxA
      · rw [if_pos hlt]
        rcases ih (attempt + 1)
            (Src.handleDownloadFailure env attempt false
              { st with attemptsDone := st.attemptsDone + 1 }).2 with ⟨i1, i2, i3, i4, i5⟩
        have hA := handleDownloadFailure_snd_attemptsDone env attempt false
          { st with attemptsDone := st.attemptsDone + 1 }
        exact ⟨i1, i2, by omega, by omega, fun _ => by omega⟩
      · rw [if_neg hlt]
        rcases ih (attempt + 1) { st with attemptsDone := st.attemptsDone + 1 } with
          ⟨i1, i2, i3, i4, i5⟩
        exact ⟨i1, i2, by omega, by omega, fun _ => by omega⟩
    · -- dlFail b
      simp only [Src.downloadAttemptsGo, ho]
      by_cases hc : (b && decide (attempt < maxA)) = true
      · rw [if_pos hc]
        by_cases hsw : (Src.handleDownloadFailure env attempt true
            { st with attemptsDone := st.attemptsDone + 1 }).1 = true
        · rw [if_pos hsw]
          rcases ih (attempt + 1)
              (Src.handleDownloadFailure env attempt true
                { st with attemptsDone := st.attemptsDone + 1 }).2 with ⟨i1, i2, i3, i4, i5⟩
          have hA := handleDownloadFailure_snd_attemptsDone env attempt true
            { st with attemptsDone := st.attemptsDone + 1 }
          exact ⟨i1, i2, by omega, by omega, fun _ => by omega⟩
        · rw [if_neg hsw]
          have hA := handleDownloadFailure_snd_attemptsDone env attempt true
            { st with attemptsDone := st.attemptsDone + 1 }
          have hB := handleDownloadFailure_snd_attemptsDone env attempt false
            (Src.handleDownloadFailure env attempt true
              { st with attemptsDone := st.attemptsDone + 1 }).2
          dsimp only
          exact ⟨rfl, rfl, by omega, by omega, fun _ => by omega⟩
      · rw [if_neg hc]
        have hA := handleDownloadFailure_snd_attemptsDone env attempt false
          { st with attemptsDone := st.attemptsDone + 1 }
        dsimp only
        exact ⟨rfl, rfl, by omega, by omega, fun _ => by omega⟩
    · -- tooSmall
      simp only [Src.downloadAttemptsGo, ho]
      by_cases hlt : attempt < maxA
      · rw [if_pos hlt]
        by_cases hsw : (Src.handleDownloadFailure env attempt false
            { st with attemptsDone := st.attemptsDone + 1 }).1 = true
        · rw [if_pos hsw]
          rcases ih (attempt + 1)
              (Src.handleDownloadFailure env attempt false
                { st with attemptsDone := st.attemptsDone + 1 }).2 with ⟨i1, i2, i3, i4, i5⟩
          have hA := handleDownloadFailure_snd_attemptsDone env attempt false
            { st with attemptsDone := st.attemptsDone + 1 }
          exact ⟨i1, i2, by omega, by omega, fun _ => by omega⟩
        · rw [if_neg hsw]
          have hA := handleDownloadFailure_snd_attemptsDone env attempt false
            { st with attemptsDone := st.attemptsDone + 1 }
          dsimp only
          exact ⟨rfl, rfl, by omega, by omega, fun _ => by omega⟩
      · rw [if_neg hlt]
        dsimp only
        exact ⟨rfl, rfl, by omega, by omega, fun _ => by omega⟩
    · -- ok: impossible under hf
      exact absurd ho (hf attempt)

/-- C3 amended: a report whose every attempt fails is marked `failed`
and `download_report` returns `False`, after at least one and at most
the configured maximum number of attempts (3 when retry-on-403 is
enabled, 1 otherwise) — the loop is bounded, but an early non-403
failure can end the run below the maximum. -/
theorem c3_retry_bound_amended (env : Src.OrchEnv) (rep : Src.ReportInfo)
    (force retryOn403 : Bool) (c0 : Nat)
    (hurl : rep.hasUrl = true)
    (hskip : (!force && rep.fileExists && decide (1024 < rep.fileSize)) = false)
    (hf : ∀ n, env.out n ≠ Src.AttemptOutcome.ok) :
    (Src.download_report env rep force retryOn403 c0).1 = false ∧
    (Src.download_report env rep force retryOn403 c0).2.reportStatus = some "failed" ∧
    1 ≤ (Src.download_report env rep force retryOn403 c0).2.attemptsDone ∧
    (Src.download_report env rep force retryOn403 c0).2.attemptsDone ≤
      (if retryOn403 then 3 else 1) := by
  have hmax1 : 1 ≤ (if retryOn403 then 3 else 1) := by cases retryOn403 <;> norm_num
  simp only [Src.download_report, hurl, hskip, Bool.not_true, Bool.false_eq_true, if_false]
  rcases downloadAttemptsGo_allfail env (if retryOn403 then 3 else 1) hf
      (if retryOn403 then 3 else 1) 1
      { counter := c0, invocations := [], reportStatus := none, attemptsDone := 0 } with
    ⟨g1, g2, g3, g4, g5⟩
  have h0 : ({ counter := c0, invocations := [], reportStatus := none, attemptsDone := 0 } :
      Src.OrchState).attemptsDone = 0 := rfl
  exact ⟨g1, g2, by omega, by omega⟩

/-- C3 amended witness: three exception-failing attempts with retry
enabled exhaust exactly the cap of three and mark the report failed. -/
theorem c3_retry_bound_amended_witness :
    (Src.download_report
        { out := fun _ => Src.AttemptOutcome.raises, cbPresent := true,
          cbResult := fun _ => false }
        { hasUrl := true, fileExists := false, fileSize := 0 } false true 0).1 = false ∧
    (Src.download_report
        { out := fun _ => Src.AttemptOutcome.raises, cbPresent := true,
          cbResult := fun _ => false }
        { hasUrl := true, fileExists := false, fileSize := 0 } false true 0).2.reportStatus =
      some "failed" ∧
    1 ≤ (Src.download_report
        { out := fun _ => Src.AttemptOutcome.raises, cbPresent := true,
          cbResult := fun _ => false }
        { hasUrl := true, fileExists := false, fileSize := 0 } false true 0).2.attemptsDone ∧
    (Src.download_report
        { out := fun _ => Src.AttemptOutcome.raises, cbPresent := true,
          cbResult := fun _ => false }
        { hasUrl := true, fileExists := false, fileSize := 0 } false true 0).2.attemptsDone ≤
      (if true then 3 else 1) :=
  c3_retry_bound_amended
    { out := fun _ => Src.AttemptOutcome.raises, cbPresent := true,
      cbResult := fun _ => false }
    { hasUrl := true, fileExists := false, fileSize := 0 } false true 0 rfl (by decide)
    (fun _ h => nomatch h)

end IpoIpo
